import Mathlib

/-
Verification of the progressive image-loading subsystem of the portfolio
website (src/assets/js/image-loader.js), against its design specification.

The ImageLoader class is embedded as an event-driven small-step semantics:

* `Elem` models one DOM image element together with its mutable attributes
  (dataset entries, `src`, `alt`, class list) and its container / ancestor
  class lists (the containers themselves only matter through their classes).
* `LoaderState` models the mutable registries of the ImageLoader instance
  (`loadingImages`, `loadedImages`, `failedImages`, `retryAttempts`) plus
  the element store.
* Asynchronous work (a detached probe image awaiting load/error, a pending
  backoff timer) is modelled as a `PendingTask` queue; `Event`s deliver a
  probe result, fire a timer, trigger a load, or deliver a DOM error event.
  Within one JavaScript event-loop turn the code runs synchronously, so each
  source method is a function from system state to system state that may
  enqueue tasks; the browser's interleaving is the list of `Event`s.

JavaScript truthiness (`.filter(Boolean)`, `a || b`) is modelled explicitly:
`undefined` is `Option.none` and the empty string is falsy.
-/

namespace ImgLoad

abbrev ElemId := Nat

/-- Association-list lookup (models `Map.get`, returning `undefined` as `none`). -/
def alookup {α β : Type} [DecidableEq α] : List (α × β) → α → Option β
  | [], _ => none
  | (k, v) :: rest, a => if k = a then some v else alookup rest a

/-- Association-list update (models `Map.set`). -/
def aset {α β : Type} [DecidableEq α] : List (α × β) → α → β → List (α × β)
  | [], a, b => [(a, b)]
  | (k, v) :: rest, a, b => if k = a then (a, b) :: rest else (k, v) :: aset rest a b

/-- Set insertion (models `Set.add`: no duplicates, insertion order kept). -/
def sadd {α : Type} [DecidableEq α] (l : List α) (x : α) : List α :=
  if x ∈ l then l else l ++ [x]

/-- One DOM image element: dataset attributes (absent = `none`), the live
`src` and `alt` (the DOM reflects these as strings, empty when unset), the
element's own class list, the class list of its `.image-container` wrapper,
and the class lists of its remaining ancestors, innermost first (static DOM
context used by `closest`). -/
structure Elem where
  datasetWebp : Option String
  datasetJpg : Option String
  datasetFallback : Option String
  datasetSrc : Option String
  src : String
  alt : String
  classes : List String
  containerClasses : List String
  ancestors : List (List String)
deriving DecidableEq

def emptyElem : Elem :=
  { datasetWebp := none, datasetJpg := none, datasetFallback := none,
    datasetSrc := none, src := "", alt := "", classes := [],
    containerClasses := [], ancestors := [] }

/-- The mutable registries of an `ImageLoader` instance (constructor,
image-loader.js lines 8-14) plus the element store. -/
structure LoaderState where
  loadingImages : List ElemId
  loadedImages : List ElemId
  failedImages : List String
  retryAttempts : List (String × Nat)
  elems : List (ElemId × Elem)
deriving DecidableEq

def getEl (st : LoaderState) (i : ElemId) : Elem :=
  (alookup st.elems i).getD emptyElem

/-- `this.maxRetries = 3` (image-loader.js line 14). -/
def maxRetries : Nat := 3

/-- `classList.add`: no-op when the token is present. -/
def classAdd (l : List String) (c : String) : List String :=
  if c ∈ l then l else l ++ [c]

/-- `classList.remove`. -/
def classRemove (l : List String) (c : String) : List String :=
  l.filter (fun x => x ≠ c)

/-- `.filter(Boolean)` over the candidate array: drops `undefined` entries
and empty strings (both falsy in JavaScript). -/
def filterBoolean : List (Option String) → List String
  | [] => []
  | none :: rest => filterBoolean rest
  | some s :: rest => if s = "" then filterBoolean rest else s :: filterBoolean rest

/-- The candidate list built by `loadImageProgressive` (lines 198-204):
`[img.dataset.webp, img.dataset.jpg, img.dataset.fallback, img.dataset.src,
img.src].filter(Boolean)`. -/
def formatsOf (e : Elem) : List String :=
  filterBoolean [e.datasetWebp, e.datasetJpg, e.datasetFallback, e.datasetSrc, some e.src]

/-- `img.dataset.src || img.src` (line 240), with JavaScript falsiness. -/
def originalSrcOf (e : Elem) : String :=
  match e.datasetSrc with
  | some s => if s = "" then e.src else s
  | none => e.src

/-- `img.closest('.cls')`: the element itself, its container, or any
further ancestor carries the class. -/
def closestHas (e : Elem) (cls : String) : Bool :=
  (e.classes :: e.containerClasses :: e.ancestors).any (fun l => l.contains cls)

/-- `getContextualPlaceholder` (lines 272-282). -/
def getContextualPlaceholder (e : Elem) : String :=
  if closestHas e "collection-card" then
    "assets/images/placeholders/collection-placeholder.svg"
  else if closestHas e "artwork-card" then
    "assets/images/placeholders/artwork-placeholder.svg"
  else if closestHas e "about" then
    "assets/images/placeholders/avatar-placeholder.svg"
  else
    "assets/images/placeholders/image-error.svg"

/-- `markImageLoaded` (lines 315-325): class updates on element and
container. The 50ms deferred `fade-in` class is a pure cosmetic addition
that no modelled code reads; it is not part of the modelled state. -/
def markImageLoaded (e : Elem) : Elem :=
  { e with
    classes := classAdd (classRemove e.classes "loading") "loaded",
    containerClasses :=
      classAdd (classRemove (classRemove e.containerClasses "loading") "image-loading") "loaded" }

/-- Pending asynchronous work: a detached probe image (`new Image()` with
`onload`/`onerror` set and `src` assigned, lines 216-230) awaiting its
network result, or a scheduled backoff `setTimeout` (lines 251-253). -/
inductive PendingTask where
  | probe (i : ElemId) (formats : List String) (index : Nat)
  | retryTimer (delayMs : Nat) (i : ElemId)
deriving DecidableEq

/-- Loader state plus the queue of pending asynchronous tasks. -/
structure Sys where
  st : LoaderState
  tasks : List PendingTask
deriving DecidableEq

/-- `handleImageError` (lines 238-270). The container lookup
(`ensureImageContainer`) is a structural no-op here: containers are part
of each `Elem`. Either schedules a backoff retry (retryCount < maxRetries)
or enters the terminal error state. -/
def handleImageError (sys : Sys) (i : ElemId) : Sys :=
  let e := getEl sys.st i
  let originalSrc := originalSrcOf e
  let st1 := { sys.st with failedImages := sadd sys.st.failedImages originalSrc }
  let retryCount := (alookup st1.retryAttempts originalSrc).getD 0
  if retryCount < maxRetries then
    { st := { st1 with retryAttempts := aset st1.retryAttempts originalSrc (retryCount + 1) },
      tasks := sys.tasks ++ [PendingTask.retryTimer (2 ^ retryCount * 1000) i] }
  else
    let e1 := { e with
      classes := classAdd (classRemove e.classes "loading") "error",
      containerClasses :=
        classAdd (classRemove (classRemove e.containerClasses "loading") "image-loading") "error" }
    let e2 := { e1 with src := getContextualPlaceholder e1,
                        alt := "Image temporarily unavailable" }
    { st := { st1 with elems := aset st1.elems i e2,
                       loadingImages := st1.loadingImages.erase i },
      tasks := sys.tasks }

/-- `tryLoadFormats` (lines 209-231), synchronous part: on exhaustion calls
`handleImageError`; otherwise creates a detached probe image for
`formats[index]` and returns (the probe's callbacks run asynchronously). -/
def tryLoadFormats (sys : Sys) (i : ElemId) (formats : List String) (index : Nat) : Sys :=
  if formats.length ≤ index then handleImageError sys i
  else { sys with tasks := sys.tasks ++ [PendingTask.probe i formats index] }

/-- `loadImageProgressive` (lines 191-207): guarded by `loadingImages`,
then adds the element to `loadingImages`, builds the candidate list and
starts the cascade. -/
def loadImageProgressive (sys : Sys) (i : ElemId) : Sys :=
  if i ∈ sys.st.loadingImages then sys
  else
    let st1 := { sys.st with loadingImages := sadd sys.st.loadingImages i }
    tryLoadFormats { st := st1, tasks := sys.tasks } i (formatsOf (getEl st1 i)) 0

/-- The `testImg.onload` callback body (lines 218-223): commit the probed
source to the live element, mark it loaded, update the registries. -/
def probeOnload (sys : Sys) (i : ElemId) (currentFormat : String) : Sys :=
  let e := markImageLoaded { getEl sys.st i with src := currentFormat }
  { st := { sys.st with
      elems := aset sys.st.elems i e,
      loadingImages := sys.st.loadingImages.erase i,
      loadedImages := sadd sys.st.loadedImages i },
    tasks := sys.tasks }

/-- Completion of the k-th pending task: a probe resolves with network
result `res` (`onload` when true, `onerror` → next candidate when false,
lines 218-228), or a backoff timer elapses and re-invokes
`loadImageProgressive` (lines 251-253); `res` is ignored for timers. -/
def resolveTask (sys : Sys) (k : Nat) (res : Bool) : Sys :=
  match sys.tasks[k]? with
  | some (PendingTask.probe i formats index) =>
      let sys1 : Sys := { sys with tasks := sys.tasks.eraseIdx k }
      if res then probeOnload sys1 i (formats.getD index "")
      else tryLoadFormats sys1 i formats (index + 1)
  | some (PendingTask.retryTimer _ i) =>
      loadImageProgressive { sys with tasks := sys.tasks.eraseIdx k } i
  | none => sys

/-- One browser event-loop occurrence touching the loader: an external
trigger of `loadImageProgressive`, completion of a pending task, or the
capture-phase `error` listener (lines 70-76) invoking `handleImageError`. -/
inductive Event where
  | trigger (i : ElemId)
  | taskDone (k : Nat) (res : Bool)
  | errorEvent (i : ElemId)
deriving DecidableEq

def stepEvent (sys : Sys) : Event → Sys
  | Event.trigger i => loadImageProgressive sys i
  | Event.taskDone k res => resolveTask sys k res
  | Event.errorEvent i => handleImageError sys i

def run : Sys → List Event → Sys
  | sys, [] => sys
  | sys, ev :: rest => run (stepEvent sys ev) rest

/-
Derived descriptions of one full cascade pass. A pass is driven by a
network oracle `ok : String → Bool` saying which sources decode
successfully during that pass; the events of the pass are the probe
completions delivered in order.
-/

/-- The first candidate the oracle accepts. -/
def firstOk (ok : String → Bool) : List String → Option String
  | [] => none
  | f :: rest => if ok f then some f else firstOk ok rest

/-- The candidates actually probed during one pass: every candidate up to
and including the first success, or all of them when none succeeds. -/
def attemptsList (ok : String → Bool) : List String → List String
  | [] => []
  | f :: rest => if ok f then [f] else f :: attemptsList ok rest

/-- The probe-completion events of one pass starting at `index`, for a
system whose only pending task is the current probe (hence task index 0). -/
def respondFrom (ok : String → Bool) (formats : List String) (index : Nat) : List Event :=
  (attemptsList ok (formats.drop index)).map (fun f => Event.taskDone 0 (ok f))

/-- One full pass for element `i`: the external trigger followed by all of
its probe completions as decided by the oracle. -/
def cascadeEvents (ok : String → Bool) (sys : Sys) (i : ElemId) : List Event :=
  Event.trigger i :: respondFrom ok (formatsOf (getEl sys.st i)) 0

def runCascade (ok : String → Bool) (sys : Sys) (i : ElemId) : Sys :=
  run sys (cascadeEvents ok sys i)

/-- The four terminal placeholder URIs of `getContextualPlaceholder`. -/
def placeholderURIs : List String :=
  ["assets/images/placeholders/collection-placeholder.svg",
   "assets/images/placeholders/artwork-placeholder.svg",
   "assets/images/placeholders/avatar-placeholder.svg",
   "assets/images/placeholders/image-error.svg"]

/-- Modelled from the spec: the category placeholder of a single DOM node's
class list, used to state the spec's innermost-matching-container rule. -/
def categoryPlaceholderOf (cl : List String) : Option String :=
  if cl.contains "collection-card" then
    some "assets/images/placeholders/collection-placeholder.svg"
  else if cl.contains "artwork-card" then
    some "assets/images/placeholders/artwork-placeholder.svg"
  else if cl.contains "about" then
    some "assets/images/placeholders/avatar-placeholder.svg"
  else none

/-- Modelled from the spec's words ("innermost matching container:
collection card, artwork/gallery card, about/avatar region, else
generic"): walk the ancestor chain innermost-first and take the first node
that matches any recognized context. Stated only to compare against the
source's `getContextualPlaceholder`. -/
def specInnermostPlaceholder (e : Elem) : String :=
  match (e.classes :: e.containerClasses :: e.ancestors).filterMap categoryPlaceholderOf with
  | c :: _ => c
  | [] => "assets/images/placeholders/image-error.svg"

/-
The Lazy Visibility Detector (`setupLazyLoading`, lines 35-68), modelled
together with standard IntersectionObserver semantics: the browser holds a
set of observed elements and delivers batches of entries; an entry can only
concern an element that was observed when the batch was generated (this is
the `validTrace` hypothesis below). The callback body (lines 37-47) is
translated directly; `unobserve` removes the element from the observed set.
-/

/-- Observer configuration (lines 49-52): `rootMargin: '100px 0px'`,
`threshold: 0.01`. -/
def observerRootMargin : String := "100px 0px"

def observerThreshold : ℚ := 0.01

/-- One IntersectionObserver entry: its target and whether the target
currently intersects the root area extended by the configured margin. -/
structure Entry where
  target : ElemId
  isIntersecting : Bool
deriving DecidableEq

structure LazySys where
  observed : List ElemId
  sys : Sys
deriving DecidableEq

/-- `container.classList.add('image-loading')` for element `i`'s container
(line 43). -/
def addContainerClassTo (st : LoaderState) (i : ElemId) (c : String) : LoaderState :=
  let e := getEl st i
  { st with elems := aset st.elems i { e with containerClasses := classAdd e.containerClasses c } }

/-- The observer callback body for one entry (lines 37-47): on an
intersecting entry, apply the loading visual state to the container, start
the progressive load, and `unobserve` the target; otherwise do nothing. -/
def lazyEntryStep (ls : LazySys) (en : Entry) : LazySys :=
  if en.isIntersecting then
    { observed := ls.observed.erase en.target,
      sys := loadImageProgressive
        { st := addContainerClassTo ls.sys.st en.target "image-loading",
          tasks := ls.sys.tasks } en.target }
  else ls

/-- A trace step: one delivered observer batch, or any other loader event
(probe completions, timers, error events, external triggers) happening
between batches. -/
inductive LazyStep where
  | batch (entries : List Entry)
  | loader (ev : Event)
deriving DecidableEq

/-- Processing one batch while counting, for element `i`, the entries that
actually start a cascade (intersecting and not blocked by the
`loadingImages` guard). -/
def lazyBatchCount (i : ElemId) : LazySys → List Entry → LazySys × Nat
  | ls, [] => (ls, 0)
  | ls, en :: rest =>
      let started : Nat :=
        if en.target = i ∧ en.isIntersecting = true ∧ i ∉ ls.sys.st.loadingImages then 1 else 0
      let p := lazyBatchCount i (lazyEntryStep ls en) rest
      (p.1, started + p.2)

/-- Running a trace while counting the cascade starts for element `i` that
the Lazy Visibility Detector performs. -/
def lazyRunCount (i : ElemId) : LazySys → List LazyStep → LazySys × Nat
  | ls, [] => (ls, 0)
  | ls, LazyStep.batch b :: rest =>
      let p := lazyBatchCount i ls b
      let q := lazyRunCount i p.1 rest
      (q.1, p.2 + q.2)
  | ls, LazyStep.loader ev :: rest =>
      lazyRunCount i { ls with sys := stepEvent ls.sys ev } rest

/-- Browser-side validity of a trace: every entry of a batch targets an
element observed at the moment the batch is delivered (the browser never
reports an unobserved element). -/
def validTrace (ls : LazySys) : List LazyStep → Prop
  | [] => True
  | LazyStep.batch b :: rest =>
      (∀ en ∈ b, en.target ∈ ls.observed) ∧ validTrace (b.foldl lazyEntryStep ls) rest
  | LazyStep.loader ev :: rest => validTrace { ls with sys := stepEvent ls.sys ev } rest

/-- Bound on the stored per-reference retry counters (claim C9). -/
def retryBound (st : LoaderState) : Prop :=
  ∀ p ∈ st.retryAttempts, p.2 ≤ maxRetries

/-
Concrete instances used by code-bug traces, counterexamples and witnesses.
-/

/-- An image slot whose four candidates (webp, jpg, svg, raw src) all fail
on every pass. -/
def e1c : Elem :=
  { datasetWebp := some "a.webp", datasetJpg := some "a.jpg",
    datasetFallback := some "a.svg", datasetSrc := none, src := "orig.png",
    alt := "", classes := ["loading"],
    containerClasses := ["image-container", "loading", "image-loading"],
    ancestors := [["gallery"]] }

def sys1c : Sys :=
  { st := { loadingImages := [], loadedImages := [], failedImages := [],
            retryAttempts := [], elems := [(0, e1c)] },
    tasks := [] }

/-- Trigger, four probe failures (full candidate exhaustion), then the
scheduled backoff timer fires. -/
def evs1c : List Event :=
  [Event.trigger 0, Event.taskDone 0 false, Event.taskDone 0 false,
   Event.taskDone 0 false, Event.taskDone 0 false, Event.taskDone 0 false]

/-- The system right after the exhaustion pass, before the timer fires. -/
def sys1mid : Sys := run sys1c (evs1c.take 5)

/-- The system after the scheduled retry has fired. -/
def sys1end : Sys := run sys1c evs1c

/-- A slot for the C3 trace: webp and svg candidates plus a legacy
reference, all failing on every pass. -/
def e3c : Elem :=
  { datasetWebp := some "b.webp", datasetJpg := none,
    datasetFallback := some "b.svg", datasetSrc := some "legacy-b", src := "",
    alt := "", classes := ["loading"],
    containerClasses := ["image-container", "loading", "image-loading"],
    ancestors := [["collection-card"]] }

def sys3c : Sys :=
  { st := { loadingImages := [], loadedImages := [], failedImages := [],
            retryAttempts := [], elems := [(7, e3c)] },
    tasks := [] }

def evs3c : List Event :=
  [Event.trigger 7, Event.taskDone 0 false, Event.taskDone 0 false,
   Event.taskDone 0 false, Event.taskDone 0 false]

def sys3end : Sys := run sys3c evs3c

/-- A slot with a webp and a jpg candidate, for the C4 counterexample. -/
def e4c : Elem :=
  { datasetWebp := some "c.webp", datasetJpg := some "c.jpg",
    datasetFallback := none, datasetSrc := none, src := "c-orig.png",
    alt := "", classes := [], containerClasses := ["image-container"],
    ancestors := [["artwork-card"]] }

def c4sys0 : Sys :=
  { st := { loadingImages := [], loadedImages := [], failedImages := [],
            retryAttempts := [], elems := [(2, e4c)] }, tasks := [] }

/-- First pass: the webp candidate decodes; the slot reaches `loaded`. -/
def c4sysA : Sys := run c4sys0 [Event.trigger 2, Event.taskDone 0 true]

/-- Second trigger on the already-loaded slot: the webp candidate now
fails, the jpg candidate decodes. -/
def c4sysB : Sys := run c4sysA [Event.trigger 2, Event.taskDone 0 false, Event.taskDone 0 true]

/-- Two elements sharing the legacy reference "shared.png" in different
containers. -/
def e5a : Elem :=
  { datasetWebp := some "d3.webp", datasetJpg := none, datasetFallback := none,
    datasetSrc := some "shared.png", src := "", alt := "", classes := [],
    containerClasses := ["image-container"], ancestors := [["artwork-card"]] }

def e5b : Elem :=
  { datasetWebp := some "d4.webp", datasetJpg := none, datasetFallback := none,
    datasetSrc := some "shared.png", src := "", alt := "", classes := [],
    containerClasses := ["image-container"], ancestors := [["collection-card"]] }

def c5sysBoth : Sys :=
  { st := { loadingImages := [], loadedImages := [], failedImages := [],
            retryAttempts := [], elems := [(3, e5a), (4, e5b)] }, tasks := [] }

/-- Element 4 alone, starting from the same fresh registries. -/
def c5sysLone : Sys :=
  { st := { loadingImages := [], loadedImages := [], failedImages := [],
            retryAttempts := [], elems := [(4, e5b)] }, tasks := [] }

/-- Element 3 fails its whole candidate list, then element 4 does. -/
def c5evsBoth : List Event :=
  [Event.trigger 3, Event.taskDone 0 false, Event.taskDone 0 false,
   Event.trigger 4, Event.taskDone 1 false, Event.taskDone 1 false]

def c5evsLone : List Event :=
  [Event.trigger 4, Event.taskDone 0 false, Event.taskDone 0 false]

/-- Witness instance: a fresh slot with a 3-entry candidate list. -/
def c2wsys : Sys :=
  { st := { loadingImages := [], loadedImages := [], failedImages := [],
            retryAttempts := [],
            elems := [(5, { datasetWebp := some "w5.webp", datasetJpg := some "w5.jpg",
                            datasetFallback := some "w5.svg", datasetSrc := none, src := "",
                            alt := "", classes := [], containerClasses := ["image-container"],
                            ancestors := [["artwork-card"]] })] },
    tasks := [] }

/-- Witness instance: two slots with distinct original references. -/
def c5wsys : Sys :=
  { st := { loadingImages := [], loadedImages := [], failedImages := [],
            retryAttempts := [],
            elems := [(9, { datasetWebp := some "p9.webp", datasetJpg := none,
                            datasetFallback := none, datasetSrc := some "legacy-9", src := "",
                            alt := "", classes := [], containerClasses := [], ancestors := [] }),
                      (8, { datasetWebp := some "p8.webp", datasetJpg := none,
                            datasetFallback := none, datasetSrc := some "legacy-8", src := "",
                            alt := "", classes := [], containerClasses := [], ancestors := [] })] },
    tasks := [] }

/-- Witness instance: a pending probe for element 6 about to resolve. -/
def c6wsys : Sys :=
  { st := { loadingImages := [6], loadedImages := [], failedImages := [],
            retryAttempts := [],
            elems := [(6, { datasetWebp := some "q6.webp", datasetJpg := none,
                            datasetFallback := none, datasetSrc := none, src := "",
                            alt := "", classes := [], containerClasses := [], ancestors := [] })] },
    tasks := [PendingTask.probe 6 ["q6.webp"] 0] }

/-- Witness instance: a slot whose retry budget is exhausted. -/
def c7wsys : Sys :=
  { st := { loadingImages := [10], loadedImages := [], failedImages := [],
            retryAttempts := [("legacy-x", 3)],
            elems := [(10, { datasetWebp := none, datasetJpg := none,
                             datasetFallback := none, datasetSrc := some "legacy-x", src := "",
                             alt := "", classes := ["loading"],
                             containerClasses := ["image-container", "loading"],
                             ancestors := [["collection-card"]] })] },
    tasks := [] }

/-- An element inside an artwork card that is itself nested inside a
collection card: the innermost matching container is the artwork card. -/
def e7x : Elem :=
  { datasetWebp := none, datasetJpg := none, datasetFallback := none,
    datasetSrc := none, src := "", alt := "", classes := [],
    containerClasses := ["image-container"],
    ancestors := [["artwork-card"], ["collection-card"]] }

/-
Helper lemmas about the association-list and set primitives.
-/

theorem alookup_aset_self {α β : Type} [DecidableEq α] (l : List (α × β)) (a : α) (b : β) :
    alookup (aset l a b) a = some b := by
  induction l with
  | nil => simp [aset, alookup]
  | cons p rest ih =>
    obtain ⟨k, v⟩ := p
    by_cases h : k = a
    · simp [aset, h, alookup]
    · simp [aset, h, alookup, ih]

theorem alookup_aset_ne {α β : Type} [DecidableEq α] (l : List (α × β)) (a a' : α) (b : β)
    (h : a' ≠ a) : alookup (aset l a b) a' = alookup l a' := by
  induction l with
  | nil =>
    simp only [aset, alookup]
    rw [if_neg (Ne.symm h)]
  | cons p rest ih =>
    obtain ⟨k, v⟩ := p
    by_cases hk : k = a
    · subst hk
      simp only [aset, if_pos rfl, alookup]
      rw [if_neg (Ne.symm h), if_neg (Ne.symm h)]
    · simp only [aset, if_neg hk, alookup, ih]

theorem mem_aset {α β : Type} [DecidableEq α] (l : List (α × β)) (a : α) (b : β) (p : α × β)
    (h : p ∈ aset l a b) : p = (a, b) ∨ p ∈ l := by
  induction l with
  | nil => simp [aset] at h; simp [h]
  | cons q rest ih =>
    obtain ⟨k, v⟩ := q
    by_cases hk : k = a
    · simp [aset, hk] at h
      rcases h with h | h
      · exact Or.inl (by simp [h])
      · exact Or.inr (by simp [h])
    · simp [aset, hk] at h
      rcases h with h | h
      · exact Or.inr (by simp [h])
      · rcases ih h with h' | h'
        · exact Or.inl h'
        · exact Or.inr (by simp [h'])

theorem mem_sadd_self {α : Type} [DecidableEq α] (l : List α) (x : α) : x ∈ sadd l x := by
  unfold sadd; split
  · assumption
  · simp

theorem mem_sadd_of_mem {α : Type} [DecidableEq α] {l : List α} {x : α} (y : α)
    (h : x ∈ l) : x ∈ sadd l y := by
  unfold sadd; split
  · exact h
  · simp [h]

theorem mem_sadd_iff {α : Type} [DecidableEq α] (l : List α) (x y : α) :
    x ∈ sadd l y ↔ x = y ∨ x ∈ l := by
  unfold sadd; split
  next hy =>
    constructor
    · exact Or.inr
    · rintro (rfl | h) <;> [exact hy; exact h]
  next hy =>
    simp [or_comm]

theorem getEl_set_self (st : LoaderState) (l : List (ElemId × Elem)) (i : ElemId) (e : Elem) :
    getEl { st with elems := aset l i e } i = e := by
  simp [getEl, alookup_aset_self]

theorem getEl_set_ne (st : LoaderState) (l : List (ElemId × Elem)) (i j : ElemId) (e : Elem)
    (h : j ≠ i) : getEl { st with elems := aset l i e } j = getEl { st with elems := l } j := by
  simp [getEl, alookup_aset_ne _ _ _ _ h]

/-
C1. For every ImageSlot all of whose candidates fail on every pass, the
claim expects exactly 3 retries with delays 1s, 2s, 4s, then the
error-terminal state. The code disagrees: `handleImageError` schedules the
first retry (1000 ms) without removing the element from `loadingImages`,
so when the timer fires, `loadImageProgressive` returns at its guard and
the whole retry chain stalls: no second or third retry is ever scheduled
and the slot never reaches the error-terminal state. The repository's own
implementation summary ("Retry Logic: Exponential backoff with 3 retry
attempts") documents the intended behaviour, so this is a code bug.
-/

/-- C1: evaluating the code on a slot whose four candidates all fail:
after the exhaustion pass exactly one retry timer (1000 ms) is pending;
after it fires, no task is pending, the slot is still in `loadingImages`,
is not loaded, carries no error class, its retry counter is stuck at 1,
and both a further trigger and a further timer event leave the system
fixed — so neither retries 2 and 3 nor the error-terminal state ever
occur. -/
theorem c1_retry_stalls :
    sys1mid.tasks = [PendingTask.retryTimer 1000 0] ∧
    sys1end.tasks = [] ∧
    sys1end.st.loadingImages = [0] ∧
    sys1end.st.loadedImages = [] ∧
    alookup sys1end.st.retryAttempts "orig.png" = some 1 ∧
    (getEl sys1end.st 0).classes = ["loading"] ∧
    (getEl sys1end.st 0).src = "orig.png" ∧
    stepEvent sys1end (Event.trigger 0) = sys1end ∧
    stepEvent sys1end (Event.taskDone 0 false) = sys1end := by
  decide

/-- C3: on the total-failure path the handling of the slot does not resolve
to either terminal state: after the candidate list is exhausted and the
scheduled retry has fired, element 7 is still in `loadingImages`, is
neither `loaded` nor in the `error` terminal state, no task is pending,
and every further trigger or task event is a no-op — the slot is stuck in
`loading` forever, contradicting the claim that every failure path
resolves to `loaded` or `error-terminal`. -/
theorem c3_stalls_nonterminal :
    sys3end.tasks = [] ∧
    sys3end.st.loadingImages = [7] ∧
    (7 ∈ sys3end.st.loadedImages) = False ∧
    ((getEl sys3end.st 7).classes.contains "error") = false ∧
    ((getEl sys3end.st 7).classes.contains "loaded") = false ∧
    (getEl sys3end.st 7).src = "" ∧
    alookup sys3end.st.retryAttempts "legacy-b" = some 1 ∧
    stepEvent sys3end (Event.trigger 7) = sys3end ∧
    stepEvent sys3end (Event.taskDone 0 false) = sys3end ∧
    stepEvent sys3end (Event.taskDone 0 true) = sys3end := by
  decide

/-- C4, counterexample: a repeated load trigger on an already-loaded slot
is not a no-op. After the first pass the slot is loaded with source
"c.webp" and not in `loadingImages`; a second trigger is not the identity
(it starts a new probe), and when the webp candidate now fails while the
jpg candidate decodes, a new source "c.jpg" is committed to the live
element — the claim's "commits no new source, changes no state" is false,
and the slot was driven out of its committed state. -/
theorem c4_counterexample :
    (2 ∈ c4sysA.st.loadedImages) ∧
    (2 ∈ c4sysA.st.loadingImages → False) ∧
    (getEl c4sysA.st 2).src = "c.webp" ∧
    stepEvent c4sysA (Event.trigger 2) ≠ c4sysA ∧
    (getEl c4sysB.st 2).src = "c.jpg" := by
  decide

/-- C5, counterexample: two elements (ids 3 and 4) sharing the legacy
reference "shared.png" in different containers do not fail independently.
When element 3 exhausts its candidates first, element 4's subsequent
exhaustion is scheduled with a 2000 ms backoff (the shared counter was
already 1); the identical sequence of failures for element 4 alone yields
a 1000 ms backoff. One element's failures change the other's retry
schedule. -/
theorem c5_counterexample :
    (run c5sysBoth c5evsBoth).tasks =
      [PendingTask.retryTimer 1000 3, PendingTask.retryTimer 2000 4] ∧
    (run c5sysLone c5evsLone).tasks = [PendingTask.retryTimer 1000 4] ∧
    alookup (run c5sysBoth c5evsBoth).st.retryAttempts "shared.png" = some 2 ∧
    alookup (run c5sysLone c5evsLone).st.retryAttempts "shared.png" = some 1 := by
  decide

/-- C7, counterexample: placeholder selection does not pick the innermost
matching container. For an element whose innermost matching ancestor is an
artwork card nested inside a collection card, `getContextualPlaceholder`
returns the collection placeholder (its fixed `.closest` priority checks
collection-card first), while the spec's innermost-match rule returns the
artwork placeholder. -/
theorem c7_counterexample :
    getContextualPlaceholder e7x = "assets/images/placeholders/collection-placeholder.svg" ∧
    specInnermostPlaceholder e7x = "assets/images/placeholders/artwork-placeholder.svg" ∧
    getContextualPlaceholder e7x ≠ specInnermostPlaceholder e7x := by
  decide

/-- C10: while an element is a member of `loadingImages`, invoking
`loadImageProgressive` on it is a complete no-op — the returned system is
the input system, so every registry, the element, its container and the
task queue are unchanged and no probe is started; in particular a pending
backoff timer for that element fires to no effect beyond its own removal
from the pending queue. -/
theorem c10_inflight_noop (sys : Sys) (i : ElemId) (h : i ∈ sys.st.loadingImages) :
    loadImageProgressive sys i = sys ∧
    (∀ k d res, sys.tasks[k]? = some (PendingTask.retryTimer d i) →
      resolveTask sys k res = { sys with tasks := sys.tasks.eraseIdx k }) := by
  constructor
  · unfold loadImageProgressive
    rw [if_pos h]
  · intro k d res hk
    unfold resolveTask
    rw [hk]
    unfold loadImageProgressive
    simp only
    rw [if_pos h]

/-- C10 witness: a concrete in-flight element. -/
theorem c10_witness :
    (0 ∈ (Sys.mk (LoaderState.mk [0] [] [] [] [(0, e1c)]) [PendingTask.retryTimer 1000 0]).st.loadingImages) ∧
    (loadImageProgressive (Sys.mk (LoaderState.mk [0] [] [] [] [(0, e1c)]) [PendingTask.retryTimer 1000 0]) 0 =
      Sys.mk (LoaderState.mk [0] [] [] [] [(0, e1c)]) [PendingTask.retryTimer 1000 0] ∧
    (∀ k d res,
      (Sys.mk (LoaderState.mk [0] [] [] [] [(0, e1c)]) [PendingTask.retryTimer 1000 0]).tasks[k]? =
        some (PendingTask.retryTimer d 0) →
      resolveTask (Sys.mk (LoaderState.mk [0] [] [] [] [(0, e1c)]) [PendingTask.retryTimer 1000 0]) k res =
        { Sys.mk (LoaderState.mk [0] [] [] [] [(0, e1c)]) [PendingTask.retryTimer 1000 0] with
            tasks := (Sys.mk (LoaderState.mk [0] [] [] [] [(0, e1c)]) [PendingTask.retryTimer 1000 0]).tasks.eraseIdx k })) :=
  ⟨by decide, c10_inflight_noop _ 0 (by decide)⟩

/-
C9: preservation of the retry-counter bound through every operation. The
only write to `retryAttempts` is in `handleImageError`, guarded by
`retryCount < maxRetries`.
-/

theorem retryBound_hie (sys : Sys) (i : ElemId) (h : retryBound sys.st) :
    retryBound (handleImageError sys i).st := by
  unfold retryBound at *
  simp only [handleImageError]
  split
  next hlt =>
    intro p hp
    simp only at hp
    rcases mem_aset _ _ _ _ hp with rfl | hmem
    · exact Nat.succ_le_of_lt hlt
    · exact h p hmem
  next =>
    intro p hp
    exact h p hp

theorem retryBound_tlf (sys : Sys) (i : ElemId) (fs : List String) (idx : Nat)
    (h : retryBound sys.st) : retryBound (tryLoadFormats sys i fs idx).st := by
  unfold tryLoadFormats
  split
  · exact retryBound_hie _ _ h
  · exact h

theorem retryBound_lip (sys : Sys) (i : ElemId) (h : retryBound sys.st) :
    retryBound (loadImageProgressive sys i).st := by
  unfold loadImageProgressive
  split
  · exact h
  · exact retryBound_tlf _ _ _ _ h

theorem retryBound_resolve (sys : Sys) (k : Nat) (res : Bool) (h : retryBound sys.st) :
    retryBound (resolveTask sys k res).st := by
  unfold resolveTask
  split
  · split
    · exact h
    · exact retryBound_tlf _ _ _ _ h
  · exact retryBound_lip _ _ h
  · exact h

theorem retryBound_step (sys : Sys) (ev : Event) (h : retryBound sys.st) :
    retryBound (stepEvent sys ev).st := by
  cases ev with
  | trigger i => exact retryBound_lip _ _ h
  | taskDone k res => exact retryBound_resolve _ _ _ h
  | errorEvent i => exact retryBound_hie _ _ h

/-- C9: for every original source reference, the stored retry counter never
exceeds the configured maximum (`maxRetries = 3`): under any sequence of
triggers, probe completions, timer firings and DOM error events, every
entry of `retryAttempts` stays at most 3 whenever it started that way. -/
theorem c9_retry_bound (sys : Sys) (evs : List Event) (h : retryBound sys.st) :
    retryBound (run sys evs).st := by
  induction evs generalizing sys with
  | nil => exact h
  | cons ev rest ih => exact ih _ (retryBound_step _ _ h)

/-- C9 witness: the bound holds on a fresh loader after the full C1 event
sequence (which bumps the counter for "orig.png"). -/
theorem c9_witness : retryBound sys1c.st ∧ retryBound (run sys1c evs1c).st :=
  ⟨by unfold retryBound; decide, c9_retry_bound sys1c evs1c (by unfold retryBound; decide)⟩

/-
The cascade characterization: delivering the probe completions of one pass
according to a network oracle drives `tryLoadFormats` to commit the first
successful candidate, or to `handleImageError` when none succeeds.
-/

theorem drop_cons_getD {fs : List String} {index : Nat} (h : index < fs.length) :
    fs.drop index = fs.getD index "" :: fs.drop (index + 1) := by
  induction fs generalizing index with
  | nil => simp at h
  | cons f rest ih =>
    cases index with
    | zero => simp
    | succ n =>
      simp only [List.drop_succ_cons, List.getD_cons_succ]
      exact ih (by simpa using h)

theorem run_tryLoad (ok : String → Bool) :
    ∀ (n : Nat) (st : LoaderState) (i : ElemId) (fs : List String) (index : Nat),
      fs.length - index = n →
      run (tryLoadFormats ⟨st, []⟩ i fs index) (respondFrom ok fs index) =
        (match firstOk ok (fs.drop index) with
         | some c => probeOnload ⟨st, []⟩ i c
         | none => handleImageError ⟨st, []⟩ i) := by
  intro n
  induction n with
  | zero =>
    intro st i fs index hn
    have hle : fs.length ≤ index := Nat.sub_eq_zero_iff_le.mp hn
    have hdrop : fs.drop index = [] := List.drop_eq_nil_of_le hle
    simp [tryLoadFormats, hle, respondFrom, hdrop, attemptsList, run, firstOk]
  | succ n ih =>
    intro st i fs index hn
    have hlt : index < fs.length := by omega
    have hnle : ¬ (fs.length ≤ index) := by omega
    have hdrop := drop_cons_getD hlt
    simp only [tryLoadFormats, if_neg hnle]
    rw [respondFrom, hdrop]
    by_cases hok : ok (fs.getD index "")
    · simp only [attemptsList, if_pos hok, List.map_cons, List.map_nil, run, stepEvent,
        resolveTask, List.nil_append, List.getElem?_cons_zero, List.eraseIdx_cons_zero,
        if_pos hok, hok]
      simp only [List.getD, List.get?_eq_getElem?] at hok
      simp [firstOk, hok]
    · simp only [attemptsList, if_neg hok, List.map_cons, run, stepEvent, resolveTask,
        List.nil_append, List.getElem?_cons_zero, List.eraseIdx_cons_zero, if_neg hok]
      simp only [firstOk, if_neg hok]
      have := ih st i fs (index + 1) (by omega)
      rw [respondFrom] at this
      exact this

theorem run_cascade (ok : String → Bool) (sys : Sys) (i : ElemId)
    (h1 : sys.tasks = []) (h2 : i ∉ sys.st.loadingImages) :
    runCascade ok sys i =
      (match firstOk ok (formatsOf (getEl sys.st i)) with
       | some c =>
           probeOnload ⟨{ sys.st with loadingImages := sadd sys.st.loadingImages i }, []⟩ i c
       | none =>
           handleImageError ⟨{ sys.st with loadingImages := sadd sys.st.loadingImages i }, []⟩ i) := by
  obtain ⟨st, tasks⟩ := sys
  simp only at h1 h2
  subst h1
  simp only [runCascade, cascadeEvents, run, stepEvent, loadImageProgressive]
  rw [if_neg h2]
  exact run_tryLoad ok _ _ i _ 0 rfl

theorem attempts_firstOk (ok : String → Bool) :
    ∀ (fs : List String) (c : String), firstOk ok fs = some c →
      attemptsList ok fs = fs.takeWhile (fun f => !(ok f)) ++ [c] ∧ ok c = true := by
  intro fs
  induction fs with
  | nil => intro c h; simp [firstOk] at h
  | cons f rest ih =>
    intro c h
    by_cases hok : ok f
    · rw [firstOk, if_pos hok] at h
      cases h
      constructor
      · rw [attemptsList, if_pos hok, List.takeWhile_cons_of_neg (by simp [hok])]
        simp
      · exact hok
    · rw [firstOk, if_neg hok] at h
      obtain ⟨ha, hc⟩ := ih c h
      constructor
      · rw [attemptsList, if_neg hok, List.takeWhile_cons_of_pos (by simp [hok]), ha]
        simp
      · exact hc

theorem attempts_initial_segment (ok : String → Bool) :
    ∀ fs : List String, ∃ t, attemptsList ok fs ++ t = fs := by
  intro fs
  induction fs with
  | nil => exact ⟨[], rfl⟩
  | cons f rest ih =>
    by_cases hok : ok f
    · exact ⟨rest, by rw [attemptsList, if_pos hok]; simp⟩
    · obtain ⟨t, ht⟩ := ih
      exact ⟨t, by rw [attemptsList, if_neg hok]; simp [ht]⟩

theorem mem_takeWhile_not_ok (ok : String → Bool) :
    ∀ (fs : List String) (f : String), f ∈ fs.takeWhile (fun x => !(ok x)) → ok f = false := by
  intro fs
  induction fs with
  | nil => intro f h; simp at h
  | cons g rest ih =>
    intro f h
    by_cases hok : ok g
    · rw [List.takeWhile_cons_of_neg (by simp [hok])] at h
      simp at h
    · rw [List.takeWhile_cons_of_pos (by simp [hok])] at h
      rcases List.mem_cons.mp h with rfl | h'
      · simpa using hok
      · exact ih f h'

/-- C2: for every ImageSlot with a non-empty candidate list of any length
(including a single entry), one pass of the loader probes the candidates
of `formatsOf` — preferred webp, then jpg, then vector fallback, with the
raw legacy sources last — strictly in that order, commits to the live
element exactly the first candidate the network decodes, records the slot
as loaded, and leaves no pending probe (no further candidate is attempted
after the success). The probed candidates are the initial segment of the
candidate list ending at the first success; a 1-entry list follows the
same rule as a 3-entry list since the statement is uniform in the list. -/
theorem c2_priority_first_success (sys : Sys) (i : ElemId) (ok : String → Bool) (c : String)
    (h1 : sys.tasks = []) (h2 : i ∉ sys.st.loadingImages)
    (h3 : firstOk ok (formatsOf (getEl sys.st i)) = some c) :
    (getEl (runCascade ok sys i).st i).src = c ∧
    i ∈ (runCascade ok sys i).st.loadedImages ∧
    i ∉ (runCascade ok sys i).st.loadingImages ∧
    (runCascade ok sys i).tasks = [] ∧
    ok c = true ∧
    attemptsList ok (formatsOf (getEl sys.st i)) =
      (formatsOf (getEl sys.st i)).takeWhile (fun f => !(ok f)) ++ [c] ∧
    (∀ f ∈ (formatsOf (getEl sys.st i)).takeWhile (fun f => !(ok f)), ok f = false) ∧
    (∃ t, attemptsList ok (formatsOf (getEl sys.st i)) ++ t = formatsOf (getEl sys.st i)) := by
  have hrun := run_cascade ok sys i h1 h2
  rw [h3] at hrun
  obtain ⟨ha, hc⟩ := attempts_firstOk ok _ _ h3
  refine ⟨?_, ?_, ?_, ?_, hc, ha, fun f hf => mem_takeWhile_not_ok ok _ f hf,
    attempts_initial_segment ok _⟩
  · rw [hrun]
    simp [probeOnload, getEl, alookup_aset_self, markImageLoaded]
  · rw [hrun]
    exact mem_sadd_self _ _
  · rw [hrun]
    show i ∉ (sadd sys.st.loadingImages i).erase i
    rw [sadd, if_neg h2, List.erase_append_right _ h2]
    simpa using h2
  · rw [hrun]
    rfl

/-- C2 witness: a 3-entry candidate list where the first two candidates
fail and the vector fallback decodes. -/
theorem c2_witness :
    (c2wsys.tasks = [] ∧ 5 ∉ c2wsys.st.loadingImages ∧
     firstOk (fun s => s = "w5.svg") (formatsOf (getEl c2wsys.st 5)) = some "w5.svg") ∧
    (getEl (runCascade (fun s => s = "w5.svg") c2wsys 5).st 5).src = "w5.svg" :=
  ⟨⟨rfl, by decide, by decide⟩,
    (c2_priority_first_success c2wsys 5 (fun s => s = "w5.svg") "w5.svg"
      rfl (by decide) (by decide)).1⟩

/-- C4, amended: within one cascade pass exactly the first successfully
decoding candidate is committed and the slot is recorded as loaded with no
probe left pending; a repeated load trigger is a no-op only while the
element is still in `loadingImages` — an already-loaded slot (hypotheses
h2, h3) is not protected: a new trigger re-runs the full cascade and
commits whatever candidate now decodes first. -/
theorem c4_amended (sys : Sys) (i : ElemId) (ok : String → Bool) (c : String)
    (h1 : sys.tasks = []) (h2 : i ∈ sys.st.loadedImages) (h3 : i ∉ sys.st.loadingImages)
    (h4 : firstOk ok (formatsOf (getEl sys.st i)) = some c) :
    (∀ sys2 : Sys, i ∈ sys2.st.loadingImages → stepEvent sys2 (Event.trigger i) = sys2) ∧
    (getEl (runCascade ok sys i).st i).src = c ∧
    i ∈ (runCascade ok sys i).st.loadedImages ∧
    (runCascade ok sys i).tasks = [] := by
  have hrun := run_cascade ok sys i h1 h3
  rw [h4] at hrun
  refine ⟨?_, ?_, ?_, ?_⟩
  · intro sys2 hmem
    show loadImageProgressive sys2 i = sys2
    unfold loadImageProgressive
    rw [if_pos hmem]
  · rw [hrun]
    simp [probeOnload, getEl, alookup_aset_self, markImageLoaded]
  · rw [hrun]
    exact mem_sadd_self _ _
  · rw [hrun]
    rfl

/-- C4 witness: the already-loaded slot of the counterexample trace, with
an oracle under which the jpg candidate now decodes first. -/
theorem c4_amended_witness :
    (c4sysA.tasks = [] ∧ 2 ∈ c4sysA.st.loadedImages ∧ 2 ∉ c4sysA.st.loadingImages ∧
      firstOk (fun s => s = "c.jpg") (formatsOf (getEl c4sysA.st 2)) = some "c.jpg") ∧
    (getEl (runCascade (fun s => s = "c.jpg") c4sysA 2).st 2).src = "c.jpg" :=
  ⟨⟨by decide, by decide, by decide, by decide⟩,
    (c4_amended c4sysA 2 (fun s => s = "c.jpg") "c.jpg"
      (by decide) (by decide) (by decide) (by decide)).2.1⟩

/-- C5, amended: elements sharing the same legacy reference share the
per-reference retry counter (refuted interference shown separately); for
two elements whose original source references differ, a failure-handling
step for one leaves the other's element, its membership in the loading and
loaded registries, its retry counter and its scheduled retry timers
unchanged — distinct-reference slots fail and succeed independently. -/
theorem c5_amended (sys : Sys) (i j : ElemId) (hne : j ≠ i)
    (hsrc : originalSrcOf (getEl sys.st j) ≠ originalSrcOf (getEl sys.st i)) :
    getEl (handleImageError sys i).st j = getEl sys.st j ∧
    ((j ∈ (handleImageError sys i).st.loadingImages) ↔ j ∈ sys.st.loadingImages) ∧
    (handleImageError sys i).st.loadedImages = sys.st.loadedImages ∧
    alookup (handleImageError sys i).st.retryAttempts (originalSrcOf (getEl sys.st j)) =
      alookup sys.st.retryAttempts (originalSrcOf (getEl sys.st j)) ∧
    (∀ d, (PendingTask.retryTimer d j ∈ (handleImageError sys i).tasks) ↔
      PendingTask.retryTimer d j ∈ sys.tasks) := by
  simp only [handleImageError]
  split
  next hlt =>
    refine ⟨rfl, Iff.rfl, rfl, ?_, ?_⟩
    · exact alookup_aset_ne _ _ _ _ hsrc
    · intro d
      simp [List.mem_append, hne]
  next =>
    refine ⟨?_, ?_, rfl, rfl, fun d => Iff.rfl⟩
    · simp [getEl, alookup_aset_ne _ _ _ _ hne]
    · exact List.mem_erase_of_ne hne

/-- C5 witness: two concrete elements with distinct original references. -/
theorem c5_amended_witness :
    ((8 : ElemId) ≠ 9 ∧
     originalSrcOf (getEl c5wsys.st 8) ≠ originalSrcOf (getEl c5wsys.st 9)) ∧
    alookup (handleImageError c5wsys 9).st.retryAttempts
        (originalSrcOf (getEl c5wsys.st 8)) =
      alookup c5wsys.st.retryAttempts (originalSrcOf (getEl c5wsys.st 8)) :=
  ⟨⟨by decide, by decide⟩,
    (c5_amended c5wsys 9 8 (by decide) (by decide)).2.2.2.1⟩

/-
C6: the live element's `src` is only ever changed to a candidate whose
off-DOM probe reported a successful decode, or to a terminal placeholder.
-/

theorem placeholder_mem (e : Elem) : getContextualPlaceholder e ∈ placeholderURIs := by
  unfold getContextualPlaceholder placeholderURIs
  split
  · simp
  split
  · simp
  split
  · simp
  · simp

theorem hie_src (sys : Sys) (j i : ElemId) :
    (getEl (handleImageError sys j).st i).src = (getEl sys.st i).src ∨
    (getEl (handleImageError sys j).st i).src ∈ placeholderURIs := by
  simp only [handleImageError]
  split
  · exact Or.inl rfl
  · by_cases hij : i = j
    · subst hij
      right
      simp only [getEl, alookup_aset_self, Option.getD_some]
      exact placeholder_mem _
    · left
      simp [getEl, alookup_aset_ne _ _ _ _ hij]

theorem tlf_src (sys : Sys) (j i : ElemId) (fs : List String) (idx : Nat) :
    (getEl (tryLoadFormats sys j fs idx).st i).src = (getEl sys.st i).src ∨
    (getEl (tryLoadFormats sys j fs idx).st i).src ∈ placeholderURIs := by
  unfold tryLoadFormats
  split
  · exact hie_src sys j i
  · exact Or.inl rfl

theorem lip_src (sys : Sys) (j i : ElemId) :
    (getEl (loadImageProgressive sys j).st i).src = (getEl sys.st i).src ∨
    (getEl (loadImageProgressive sys j).st i).src ∈ placeholderURIs := by
  simp only [loadImageProgressive]
  split
  · exact Or.inl rfl
  · exact tlf_src _ j i _ 0

theorem resolve_src (sys : Sys) (k : Nat) (res : Bool) (i : ElemId) :
    (getEl (resolveTask sys k res).st i).src = (getEl sys.st i).src ∨
    (res = true ∧ ∃ fs idx, sys.tasks[k]? = some (PendingTask.probe i fs idx) ∧
      (getEl (resolveTask sys k res).st i).src = fs.getD idx "") ∨
    (getEl (resolveTask sys k res).st i).src ∈ placeholderURIs := by
  unfold resolveTask
  split
  next j fs idx heq =>
    split
    next hres =>
      by_cases hij : i = j
      · subst hij
        right; left
        refine ⟨hres, fs, idx, heq, ?_⟩
        simp [resolveTask, heq, hres, probeOnload, getEl, alookup_aset_self, markImageLoaded]
      · left
        simp [probeOnload, getEl, alookup_aset_ne _ _ _ _ hij]
    next hres =>
      rcases tlf_src { sys with tasks := sys.tasks.eraseIdx k } j i fs (idx + 1) with h | h
      · exact Or.inl h
      · exact Or.inr (Or.inr h)
  next d j heq =>
    rcases lip_src { sys with tasks := sys.tasks.eraseIdx k } j i with h | h
    · exact Or.inl h
    · exact Or.inr (Or.inr h)
  next => exact Or.inl rfl

theorem step_src (sys : Sys) (ev : Event) (i : ElemId) :
    (getEl (stepEvent sys ev).st i).src = (getEl sys.st i).src ∨
    (∃ k fs idx, ev = Event.taskDone k true ∧
      sys.tasks[k]? = some (PendingTask.probe i fs idx) ∧
      (getEl (stepEvent sys ev).st i).src = fs.getD idx "") ∨
    (getEl (stepEvent sys ev).st i).src ∈ placeholderURIs := by
  cases ev with
  | trigger j =>
    rcases lip_src sys j i with h | h
    · exact Or.inl h
    · exact Or.inr (Or.inr h)
  | taskDone k res =>
    rcases resolve_src sys k res i with h | ⟨hres, fs, idx, heq, hsrc⟩ | h
    · exact Or.inl h
    · exact Or.inr (Or.inl ⟨k, fs, idx, by rw [hres], heq, hsrc⟩)
    · exact Or.inr (Or.inr h)
  | errorEvent j =>
    rcases hie_src sys j i with h | h
    · exact Or.inl h
    · exact Or.inr (Or.inr h)

/-- C6: whenever a step of the subsystem changes the live `src` of an
element, the new value is either the candidate probed by a detached image
object that just reported a successful decode (a `taskDone _ true`
completion of a probe task for that element, committing exactly the probed
candidate), or one of the four terminal placeholder URIs — a candidate
that failed to decode is never committed to the live element. Moreover
creating a probe is off-DOM: registering the probe for the next candidate
changes no element and no registry. -/
theorem c6_src_only_decoded_or_placeholder (sys : Sys) (ev : Event) (i : ElemId)
    (hch : (getEl (stepEvent sys ev).st i).src ≠ (getEl sys.st i).src) :
    ((∃ k fs idx, ev = Event.taskDone k true ∧
        sys.tasks[k]? = some (PendingTask.probe i fs idx) ∧
        (getEl (stepEvent sys ev).st i).src = fs.getD idx "") ∨
      (getEl (stepEvent sys ev).st i).src ∈ placeholderURIs) ∧
    (∀ (sys2 : Sys) (i2 : ElemId) (fs : List String) (idx : Nat), idx < fs.length →
      (tryLoadFormats sys2 i2 fs idx).st = sys2.st) := by
  constructor
  · rcases step_src sys ev i with h | h | h
    · exact absurd h hch
    · exact Or.inl h
    · exact Or.inr h
  · intro sys2 i2 fs idx hlt
    unfold tryLoadFormats
    rw [if_neg (by omega)]

/-- C6 witness: a pending probe for element 6 resolves successfully and
commits exactly the probed candidate. -/
theorem c6_witness :
    ((getEl (stepEvent c6wsys (Event.taskDone 0 true)).st 6).src ≠
      (getEl c6wsys.st 6).src) ∧
    ((∃ k fs idx, (Event.taskDone 0 true) = Event.taskDone k true ∧
        c6wsys.tasks[k]? = some (PendingTask.probe 6 fs idx) ∧
        (getEl (stepEvent c6wsys (Event.taskDone 0 true)).st 6).src = fs.getD idx "") ∨
      (getEl (stepEvent c6wsys (Event.taskDone 0 true)).st 6).src ∈ placeholderURIs) ∧
    (∀ (sys2 : Sys) (i2 : ElemId) (fs : List String) (idx : Nat), idx < fs.length →
      (tryLoadFormats sys2 i2 fs idx).st = sys2.st) :=
  ⟨by decide, c6_src_only_decoded_or_placeholder c6wsys (Event.taskDone 0 true) 6 (by decide)⟩

/-- C7, amended: placeholder selection is a deterministic pure function of
the failed element's ancestor context, but it uses the fixed priority
collection-card, then artwork-card, then about — not the innermost
matching container: any element inside a collection-card context receives
the collection placeholder regardless of nesting, an artwork-card context
outside any collection-card receives the artwork placeholder, an
about context outside both receives the avatar placeholder, and an element
in no recognized context receives the generic placeholder. The terminal
handler also sets the alternative text "Image temporarily unavailable" and
applies the error visual class to both element and container, and the
committed terminal source is one of the placeholder URIs. -/
theorem c7_amended (e : Elem) (sys : Sys) (i : ElemId)
    (hrc : ¬ ((alookup sys.st.retryAttempts (originalSrcOf (getEl sys.st i))).getD 0 < maxRetries)) :
    (closestHas e "collection-card" = true →
      getContextualPlaceholder e = "assets/images/placeholders/collection-placeholder.svg") ∧
    (closestHas e "collection-card" = false → closestHas e "artwork-card" = true →
      getContextualPlaceholder e = "assets/images/placeholders/artwork-placeholder.svg") ∧
    (closestHas e "collection-card" = false → closestHas e "artwork-card" = false →
      closestHas e "about" = true →
      getContextualPlaceholder e = "assets/images/placeholders/avatar-placeholder.svg") ∧
    (closestHas e "collection-card" = false → closestHas e "artwork-card" = false →
      closestHas e "about" = false →
      getContextualPlaceholder e = "assets/images/placeholders/image-error.svg") ∧
    ((getEl (handleImageError sys i).st i).alt = "Image temporarily unavailable" ∧
     "error" ∈ (getEl (handleImageError sys i).st i).classes ∧
     "error" ∈ (getEl (handleImageError sys i).st i).containerClasses ∧
     (getEl (handleImageError sys i).st i).src ∈ placeholderURIs) := by
  refine ⟨?_, ?_, ?_, ?_, ?_⟩
  · intro h1
    simp [getContextualPlaceholder, h1]
  · intro h1 h2
    simp [getContextualPlaceholder, h1, h2]
  · intro h1 h2 h3
    simp [getContextualPlaceholder, h1, h2, h3]
  · intro h1 h2 h3
    simp [getContextualPlaceholder, h1, h2, h3]
  · simp only [handleImageError]
    rw [if_neg hrc]
    refine ⟨?_, ?_, ?_, ?_⟩
    · simp [getEl, alookup_aset_self]
    · simp only [getEl, alookup_aset_self, Option.getD_some]
      unfold classAdd
      split
      · assumption
      · simp
    · simp only [getEl, alookup_aset_self, Option.getD_some]
      unfold classAdd
      split
      · assumption
      · simp
    · simp only [getEl, alookup_aset_self, Option.getD_some]
      exact placeholder_mem _

/-- C7 witness: a collection-card context element, and a terminal
`handleImageError` invocation on a slot whose retry budget is exhausted. -/
theorem c7_amended_witness :
    (¬ ((alookup c7wsys.st.retryAttempts
          (originalSrcOf (getEl c7wsys.st 10))).getD 0 < maxRetries)) ∧
    (closestHas e7x "collection-card" = true →
      getContextualPlaceholder e7x = "assets/images/placeholders/collection-placeholder.svg") ∧
    ((getEl (handleImageError c7wsys 10).st 10).alt = "Image temporarily unavailable") :=
  ⟨by decide,
   (c7_amended e7x c7wsys 10 (by decide)).1,
   (c7_amended e7x c7wsys 10 (by decide)).2.2.2.2.1⟩

/-
C8: fire-once semantics of the Lazy Visibility Detector. Key invariants:
once a cascade start happens for an element it stays in `loadingImages`
for the rest of the synchronous batch (blocking duplicate same-batch
entries at the guard) and is removed from the observed set (so, by trace
validity, no later batch mentions it). The non-empty-candidate-list data
invariant of the spec is supplied through a non-empty webp dataset entry,
which no operation of the subsystem ever modifies.
-/

theorem loading_mem_lip (sys : Sys) (j i : ElemId) (h : i ∈ sys.st.loadingImages) :
    i ∈ (loadImageProgressive sys j).st.loadingImages := by
  simp only [loadImageProgressive]
  split
  · exact h
  next hj =>
    have hij : i ≠ j := fun hh => hj (hh ▸ h)
    unfold tryLoadFormats
    split
    · simp only [handleImageError]
      split
      · exact mem_sadd_of_mem _ h
      · exact (List.mem_erase_of_ne hij).mpr (mem_sadd_of_mem _ h)
    · exact mem_sadd_of_mem _ h

theorem loading_mem_lazy (ls : LazySys) (en : Entry) (i : ElemId)
    (h : i ∈ ls.sys.st.loadingImages) :
    i ∈ (lazyEntryStep ls en).sys.st.loadingImages := by
  unfold lazyEntryStep
  split
  · exact loading_mem_lip _ en.target i h
  · exact h

theorem observed_not_mem_lazy (ls : LazySys) (en : Entry) (i : ElemId)
    (h : i ∉ ls.observed) : i ∉ (lazyEntryStep ls en).observed := by
  unfold lazyEntryStep
  split
  · exact fun hmem => h (List.mem_of_mem_erase hmem)
  · exact h

theorem nodup_lazy (ls : LazySys) (en : Entry) (h : ls.observed.Nodup) :
    (lazyEntryStep ls en).observed.Nodup := by
  unfold lazyEntryStep
  split
  · exact h.erase en.target
  · exact h

theorem webp_hie (sys : Sys) (j i : ElemId) :
    (getEl (handleImageError sys j).st i).datasetWebp = (getEl sys.st i).datasetWebp := by
  simp only [handleImageError]
  split
  · rfl
  · by_cases hij : i = j
    · subst hij
      simp [getEl, alookup_aset_self]
    · simp [getEl, alookup_aset_ne _ _ _ _ hij]

theorem webp_tlf (sys : Sys) (j i : ElemId) (fs : List String) (idx : Nat) :
    (getEl (tryLoadFormats sys j fs idx).st i).datasetWebp = (getEl sys.st i).datasetWebp := by
  unfold tryLoadFormats
  split
  · exact webp_hie sys j i
  · rfl

theorem webp_lip (sys : Sys) (j i : ElemId) :
    (getEl (loadImageProgressive sys j).st i).datasetWebp = (getEl sys.st i).datasetWebp := by
  simp only [loadImageProgressive]
  split
  · rfl
  · exact webp_tlf _ j i _ 0

theorem webp_probeOnload (sys : Sys) (j i : ElemId) (c : String) :
    (getEl (probeOnload sys j c).st i).datasetWebp = (getEl sys.st i).datasetWebp := by
  by_cases hij : i = j
  · subst hij
    simp [probeOnload, getEl, alookup_aset_self, markImageLoaded]
  · simp [probeOnload, getEl, alookup_aset_ne _ _ _ _ hij]

theorem webp_resolve (sys : Sys) (k : Nat) (res : Bool) (i : ElemId) :
    (getEl (resolveTask sys k res).st i).datasetWebp = (getEl sys.st i).datasetWebp := by
  unfold resolveTask
  split
  next j fs idx heq =>
    split
    · exact webp_probeOnload _ j i _
    · exact webp_tlf _ j i fs (idx + 1)
  next d j heq => exact webp_lip _ j i
  next => rfl

theorem webp_step (sys : Sys) (ev : Event) (i : ElemId) :
    (getEl (stepEvent sys ev).st i).datasetWebp = (getEl sys.st i).datasetWebp := by
  cases ev with
  | trigger j => exact webp_lip sys j i
  | taskDone k res => exact webp_resolve sys k res i
  | errorEvent j => exact webp_hie sys j i

theorem webp_addCC (st : LoaderState) (j i : ElemId) (c : String) :
    (getEl (addContainerClassTo st j c) i).datasetWebp = (getEl st i).datasetWebp := by
  by_cases hij : i = j
  · subst hij
    simp [addContainerClassTo, getEl, alookup_aset_self]
  · simp [addContainerClassTo, getEl, alookup_aset_ne _ _ _ _ hij]

theorem webp_lazy (ls : LazySys) (en : Entry) (i : ElemId) :
    (getEl (lazyEntryStep ls en).sys.st i).datasetWebp = (getEl ls.sys.st i).datasetWebp := by
  unfold lazyEntryStep
  split
  · rw [webp_lip]
    exact webp_addCC _ _ _ _
  · rfl

theorem formats_nonempty (e : Elem) (w : String) (hw : e.datasetWebp = some w)
    (hwne : w ≠ "") : formatsOf e ≠ [] := by
  unfold formatsOf
  rw [hw]
  simp only [filterBoolean]
  rw [if_neg hwne]
  simp

theorem addCC_loading (st : LoaderState) (j : ElemId) (c : String) :
    (addContainerClassTo st j c).loadingImages = st.loadingImages := rfl

theorem lazy_start (ls : LazySys) (en : Entry) (i : ElemId) (w : String)
    (hti : en.target = i) (hint : en.isIntersecting = true)
    (hnl : i ∉ ls.sys.st.loadingImages)
    (hw : (getEl ls.sys.st i).datasetWebp = some w) (hwne : w ≠ "") :
    i ∈ (lazyEntryStep ls en).sys.st.loadingImages ∧
    (ls.observed.Nodup → i ∉ (lazyEntryStep ls en).observed) := by
  have hw1 : (getEl (addContainerClassTo ls.sys.st i "image-loading") i).datasetWebp = some w := by
    rw [webp_addCC]
    exact hw
  unfold lazyEntryStep
  rw [hint, hti]
  simp only [if_true]
  constructor
  · simp only [loadImageProgressive, addCC_loading]
    rw [if_neg hnl]
    unfold tryLoadFormats
    split
    next hle =>
      exact absurd (List.eq_nil_of_length_eq_zero (Nat.le_zero.mp hle))
        (formats_nonempty _ w hw1 hwne)
    · exact mem_sadd_self _ _
  · intro hnd hmem
    exact (hnd.mem_erase_iff.mp hmem).1 rfl

theorem batch_zero_of_loading (i : ElemId) :
    ∀ (b : List Entry) (ls : LazySys), i ∈ ls.sys.st.loadingImages →
      (lazyBatchCount i ls b).2 = 0 ∧ i ∈ (lazyBatchCount i ls b).1.sys.st.loadingImages := by
  intro b
  induction b with
  | nil => exact fun ls h => ⟨rfl, h⟩
  | cons en rest ih =>
    intro ls h
    have hrec := ih (lazyEntryStep ls en) (loading_mem_lazy ls en i h)
    constructor
    · simp only [lazyBatchCount]
      rw [if_neg (fun hc => hc.2.2 h)]
      simpa using hrec.1
    · simpa only [lazyBatchCount] using hrec.2

theorem batch_observed_mono (i : ElemId) :
    ∀ (b : List Entry) (ls : LazySys), i ∉ ls.observed →
      i ∉ (lazyBatchCount i ls b).1.observed := by
  intro b
  induction b with
  | nil => exact fun ls h => h
  | cons en rest ih =>
    intro ls h
    simpa only [lazyBatchCount] using ih (lazyEntryStep ls en) (observed_not_mem_lazy ls en i h)

theorem batch_zero_of_not_observed (i : ElemId) (S : List ElemId) (hiS : i ∉ S) :
    ∀ (b : List Entry) (ls : LazySys), (∀ en ∈ b, en.target ∈ S) →
      (lazyBatchCount i ls b).2 = 0 := by
  intro b
  induction b with
  | nil => intro ls _; rfl
  | cons en rest ih =>
    intro ls hb
    have hti : ¬ (en.target = i) := fun hh => hiS (hh ▸ hb en (by simp))
    simp only [lazyBatchCount]
    rw [if_neg (fun hc => hti hc.1)]
    simpa using ih (lazyEntryStep ls en) (fun en' h' => hb en' (by simp [h']))

theorem batch_webp (i : ElemId) :
    ∀ (b : List Entry) (ls : LazySys),
      (getEl (lazyBatchCount i ls b).1.sys.st i).datasetWebp = (getEl ls.sys.st i).datasetWebp := by
  intro b
  induction b with
  | nil => exact fun ls => rfl
  | cons en rest ih =>
    intro ls
    simp only [lazyBatchCount]
    rw [ih (lazyEntryStep ls en), webp_lazy]

theorem batch_nodup (i : ElemId) :
    ∀ (b : List Entry) (ls : LazySys), ls.observed.Nodup →
      (lazyBatchCount i ls b).1.observed.Nodup := by
  intro b
  induction b with
  | nil => exact fun ls h => h
  | cons en rest ih =>
    intro ls h
    simpa only [lazyBatchCount] using ih (lazyEntryStep ls en) (nodup_lazy ls en h)

theorem batch_bound (i : ElemId) (w : String) (hwne : w ≠ "") :
    ∀ (b : List Entry) (ls : LazySys),
      (getEl ls.sys.st i).datasetWebp = some w → ls.observed.Nodup →
      (lazyBatchCount i ls b).2 ≤ 1 ∧
      ((lazyBatchCount i ls b).2 = 1 → i ∉ (lazyBatchCount i ls b).1.observed) := by
  intro b
  induction b with
  | nil =>
    intro ls _ _
    exact ⟨by simp [lazyBatchCount], fun h => by simp [lazyBatchCount] at h⟩
  | cons en rest ih =>
    intro ls hw hnd
    by_cases hs : en.target = i ∧ en.isIntersecting = true ∧ i ∉ ls.sys.st.loadingImages
    · obtain ⟨h1, h2, h3⟩ := hs
      have hstart := lazy_start ls en i w h1 h2 h3 hw hwne
      have hzero := batch_zero_of_loading i rest (lazyEntryStep ls en) hstart.1
      have hobs := batch_observed_mono i rest (lazyEntryStep ls en) (hstart.2 hnd)
      constructor
      · simp only [lazyBatchCount]
        rw [if_pos ⟨h1, h2, h3⟩, hzero.1]
      · intro _
        simpa only [lazyBatchCount] using hobs
    · have hw' : (getEl (lazyEntryStep ls en).sys.st i).datasetWebp = some w := by
        rw [webp_lazy]; exact hw
      have hrec := ih (lazyEntryStep ls en) hw' (nodup_lazy ls en hnd)
      constructor
      · simp only [lazyBatchCount]
        rw [if_neg hs]
        simpa using hrec.1
      · intro hone
        simp only [lazyBatchCount] at hone ⊢
        rw [if_neg hs] at hone
        exact hrec.2 (by simpa using hone)

theorem batchCount_fst (i : ElemId) :
    ∀ (b : List Entry) (ls : LazySys),
      (lazyBatchCount i ls b).1 = b.foldl lazyEntryStep ls := by
  intro b
  induction b with
  | nil => exact fun ls => rfl
  | cons en rest ih =>
    intro ls
    simp only [lazyBatchCount, List.foldl]
    exact ih _

theorem trace_bound (i : ElemId) (w : String) (hwne : w ≠ "") :
    ∀ (tr : List LazyStep) (ls : LazySys),
      validTrace ls tr → ls.observed.Nodup →
      (getEl ls.sys.st i).datasetWebp = some w →
      (lazyRunCount i ls tr).2 ≤ 1 ∧
      (i ∉ ls.observed → (lazyRunCount i ls tr).2 = 0) := by
  intro tr
  induction tr with
  | nil =>
    intro ls _ _ _
    exact ⟨by simp [lazyRunCount], fun _ => rfl⟩
  | cons step rest ih =>
    intro ls hv hnd hw
    cases step with
    | loader ev =>
      have hrec := ih { ls with sys := stepEvent ls.sys ev } hv hnd
        (by rw [webp_step]; exact hw)
      exact ⟨by simpa only [lazyRunCount] using hrec.1,
             fun hno => by simpa only [lazyRunCount] using hrec.2 hno⟩
    | batch b =>
      obtain ⟨hb, hrest⟩ := hv
      have hv' : validTrace (lazyBatchCount i ls b).1 rest := by
        rw [batchCount_fst]; exact hrest
      have hBB := batch_bound i w hwne b ls hw hnd
      have hIH := ih (lazyBatchCount i ls b).1 hv' (batch_nodup i b ls hnd)
        (by rw [batch_webp]; exact hw)
      constructor
      · simp only [lazyRunCount]
        rcases Nat.lt_or_ge (lazyBatchCount i ls b).2 1 with hp | hp
        · have hp0 : (lazyBatchCount i ls b).2 = 0 := by omega
          have := hIH.1
          omega
        · have hp1 : (lazyBatchCount i ls b).2 = 1 := Nat.le_antisymm hBB.1 hp
          have hq0 := hIH.2 (hBB.2 hp1)
          omega
      · intro hno
        have hp0 := batch_zero_of_not_observed i ls.observed hno b ls hb
        have hq0 := hIH.2 (batch_observed_mono i b ls hno)
        simp only [lazyRunCount]
        omega

/-- C8: over every browser-valid trace (each delivered entry targets a
then-observed element), the Lazy Visibility Detector — configured with the
100px pre-trigger root margin and the 0.01 visible-area threshold — starts
the progressive load of a registered element at most once: the first
intersecting notification applies the loading class, starts the load and
deregisters the element, the `loadingImages` guard blocks duplicates
within the same synchronous batch, and deregistration prevents any later
batch from mentioning the element, so viewport re-entry never re-triggers
it. A non-intersecting notification (outside the proximity region) changes
nothing at all. The element is assumed to carry a non-empty webp candidate
(the spec's non-empty-candidate-list invariant); the initial observed set
is duplicate-free, as `IntersectionObserver.observe` guarantees. -/
theorem c8_lazy_at_most_once (i : ElemId) (w : String) (ls : LazySys) (tr : List LazyStep)
    (hv : validTrace ls tr) (hnd : ls.observed.Nodup)
    (hw : (getEl ls.sys.st i).datasetWebp = some w) (hwne : w ≠ "") :
    (lazyRunCount i ls tr).2 ≤ 1 ∧
    (∀ (ls2 : LazySys) (en : Entry), en.isIntersecting = false → lazyEntryStep ls2 en = ls2) ∧
    observerRootMargin = "100px 0px" ∧ observerThreshold = 1 / 100 :=
  ⟨(trace_bound i w hwne tr ls hv hnd hw).1,
   fun ls2 en hfalse => by simp [lazyEntryStep, hfalse],
   rfl,
   by norm_num [observerThreshold]⟩

/-- C8 witness: element 11 observed, delivered twice as intersecting in
one batch (trace validity holds since validity is checked at batch
delivery); the detector starts at most one load. -/
theorem c8_witness :
    (validTrace
        (LazySys.mk [11] (Sys.mk (LoaderState.mk [] [] [] []
          [(11, Elem.mk (some "z.webp") none none none "" "" [] [] [])]) []))
        [LazyStep.batch [Entry.mk 11 true, Entry.mk 11 true]] ∧
      (LazySys.mk [11] (Sys.mk (LoaderState.mk [] [] [] []
        [(11, Elem.mk (some "z.webp") none none none "" "" [] [] [])]) [])).observed.Nodup ∧
      (getEl (LazySys.mk [11] (Sys.mk (LoaderState.mk [] [] [] []
        [(11, Elem.mk (some "z.webp") none none none "" "" [] [] [])]) [])).sys.st 11).datasetWebp
        = some "z.webp" ∧
      "z.webp" ≠ "") ∧
    (lazyRunCount 11
        (LazySys.mk [11] (Sys.mk (LoaderState.mk [] [] [] []
          [(11, Elem.mk (some "z.webp") none none none "" "" [] [] [])]) []))
        [LazyStep.batch [Entry.mk 11 true, Entry.mk 11 true]]).2 ≤ 1 :=
  ⟨⟨⟨by decide, trivial⟩, by decide, by decide, by decide⟩,
   (c8_lazy_at_most_once 11 "z.webp"
      (LazySys.mk [11] (Sys.mk (LoaderState.mk [] [] [] []
        [(11, Elem.mk (some "z.webp") none none none "" "" [] [] [])]) []))
      [LazyStep.batch [Entry.mk 11 true, Entry.mk 11 true]]
      ⟨by decide, trivial⟩ (by decide) (by decide) (by decide)).1⟩

end ImgLoad
